import Mathlib

/-!
# Verification of the komple-framework marketplace / mint / token contracts

This file is a shallow embedding, in Lean 4, of the parts of the
`janfabian/komple-framework` repository that the verified properties talk
about:

* the marketplace module (`src/contracts/marketplace/src/contract.rs`):
  fixed listings, listing / delisting / repricing / buying, and the fund
  split performed on a buy;
* the token module (`src/contracts/token/src/contract.rs`): the four
  semantic locks at collection and per-asset granularity, the global
  operation lock, minting with quotas, burn, transfer, send and admin
  transfer;
* the mint module (`src/contracts/modules/mint/src/contract.rs`):
  collection creation with linked-collection validation, the reply-driven
  address binding, and the active / blacklist collection registries.

Machine integers (`u32`, `Uint128`) are modelled as `Nat`; the arithmetic
the claims are about (fee computation, counters) never wraps in the source
because `Uint128` / `cw-storage` operations are checked, so `Nat` is the
faithful carrier.  `cosmwasm_std::Decimal` is a fixed-point decimal with
18 fractional digits; it is modelled by its numerator over
`DECIMAL_FRACTIONAL = 10^18`.  Fallible entry points return `Except`.
Storage maps (`cw_storage_plus::Map`) are modelled as functions into
`Option`, storage items as plain fields.  Errors abort the whole
transaction in CosmWasm, so a step function that returns `.error` leaves
the state unchanged by construction.
-/

/-- Source `cosmwasm_std::Decimal::DECIMAL_FRACTIONAL`: a `Decimal` is a numerator
over this denominator (18 fractional decimal digits). -/
def DECIMAL_FRACTIONAL : Nat := 1000000000000000000

/-- Source `Decimal * Uint128` in cosmwasm-std: `p.multiply_ratio(d, 10^18)`,
i.e. floor-toward-zero multiplication `⌊p * d / 10^18⌋`.  `d` is the
decimal's numerator. -/
def decimal_mul (d : Nat) (p : Nat) : Nat :=
  p * d / DECIMAL_FRACTIONAL

/-- The three outputs of the fund split in `_execute_buy_fixed_listing`
(`src/contracts/marketplace/src/contract.rs` lines 270-297). -/
structure BuySplit where
  marketplace_fee : Nat
  royalty_fee : Nat
  seller_payout : Nat
  deriving DecidableEq, Repr

/-- Royalty fee of the buy path: `royalty_share.mul(price)` when a royalty
share is configured in the collection's token config, zero otherwise
(`contract.rs` lines 272-294). -/
def royalty_fee_of (royalty_share : Option Nat) (price : Nat) : Nat :=
  match royalty_share with
  | none => 0
  | some r => decimal_mul r price

/-- The fund split of `_execute_buy_fixed_listing`
(`src/contracts/marketplace/src/contract.rs` lines 269-297):
`fee = fee_percentage.mul(price)`, `royalty_fee` as above, and
`payout = price.checked_sub(fee + royalty_fee)?`.  The checked subtraction
fails (`none`) exactly when `fee + royalty_fee > price`. -/
def computeBuySplit (price : Nat) (fee_percentage : Nat)
    (royalty_share : Option Nat) : Option BuySplit :=
  let fee := decimal_mul fee_percentage price
  let roy := royalty_fee_of royalty_share price
  if fee + roy ≤ price then
    some ⟨fee, roy, price - (fee + roy)⟩
  else
    none

lemma div_add_div_le (a b c : Nat) (hc : 0 < c) :
    a / c + b / c ≤ (a + b) / c := by
  rw [Nat.le_div_iff_mul_le hc]
  calc (a / c + b / c) * c = a / c * c + b / c * c := by ring
    _ ≤ a + b := Nat.add_le_add (Nat.div_mul_le_self a c) (Nat.div_mul_le_self b c)

lemma fee_add_royalty_le (price f : Nat) (r : Option Nat)
    (h : f + r.getD 0 ≤ DECIMAL_FRACTIONAL) :
    decimal_mul f price + royalty_fee_of r price ≤ price := by
  have hD : 0 < DECIMAL_FRACTIONAL := by decide
  have key : ∀ g rr : Nat, g + rr ≤ DECIMAL_FRACTIONAL →
      decimal_mul g price + decimal_mul rr price ≤ price := by
    intro g rr hgr
    have h1 : decimal_mul g price + decimal_mul rr price
        ≤ (price * g + price * rr) / DECIMAL_FRACTIONAL :=
      div_add_div_le _ _ _ hD
    have h2 : (price * g + price * rr) / DECIMAL_FRACTIONAL
        ≤ price * DECIMAL_FRACTIONAL / DECIMAL_FRACTIONAL := by
      apply Nat.div_le_div_right
      calc price * g + price * rr = price * (g + rr) := by ring
        _ ≤ price * DECIMAL_FRACTIONAL := Nat.mul_le_mul_left _ hgr
    have h3 : price * DECIMAL_FRACTIONAL / DECIMAL_FRACTIONAL = price :=
      Nat.mul_div_cancel price hD
    omega
  match r with
  | none =>
      have := key f 0 (by simpa using h)
      simpa [royalty_fee_of, decimal_mul] using this
  | some rr =>
      have := key f rr (by simpa using h)
      simpa [royalty_fee_of] using this

/-- C1: Fund split conservation in Buy.  For every price `p`, marketplace
fee rate `f` and optional royalty rate `r` (decimals given by their
numerators over `10^18`) with `f + r ≤ 1`: the marketplace fee is
`⌊f*p⌋`, the royalty fee is `⌊r*p⌋` (0 when no royalty share is
configured), the checked subtraction computing the seller payout
`p - fee - royalty` succeeds, and
`marketplace_fee + royalty_fee + seller_payout = p` exactly. -/
theorem C1_fund_split_conservation (p f : Nat) (r : Option Nat)
    (h : f + r.getD 0 ≤ DECIMAL_FRACTIONAL) :
    computeBuySplit p f r =
      some ⟨decimal_mul f p, royalty_fee_of r p,
            p - (decimal_mul f p + royalty_fee_of r p)⟩ ∧
    decimal_mul f p + royalty_fee_of r p +
      (p - (decimal_mul f p + royalty_fee_of r p)) = p := by
  have hle := fee_add_royalty_le p f r h
  constructor
  · simp [computeBuySplit, hle]
  · omega

/-- Witness for C1, at the spec's Scenario B: price 1000, fee 4 percent,
royalty 10 percent gives fees 40 and 100 and payout 860, summing to 1000. -/
theorem C1_fund_split_conservation_witness :
    (40000000000000000 + (Option.getD (some 100000000000000000) 0)
        ≤ DECIMAL_FRACTIONAL) ∧
    (computeBuySplit 1000 40000000000000000 (some 100000000000000000) =
      some ⟨decimal_mul 40000000000000000 1000,
            royalty_fee_of (some 100000000000000000) 1000,
            1000 - (decimal_mul 40000000000000000 1000 +
              royalty_fee_of (some 100000000000000000) 1000)⟩ ∧
     decimal_mul 40000000000000000 1000 +
       royalty_fee_of (some 100000000000000000) 1000 +
       (1000 - (decimal_mul 40000000000000000 1000 +
         royalty_fee_of (some 100000000000000000) 1000)) = 1000) :=
  ⟨by decide,
   C1_fund_split_conservation 1000 40000000000000000
     (some 100000000000000000) (by decide)⟩

/-! ## Shared data model: locks and coins -/

/-- Source `komple_types::tokens::Locks`: four independent boolean gates. -/
structure Locks where
  mint_lock : Bool
  burn_lock : Bool
  transfer_lock : Bool
  send_lock : Bool
  deriving DecidableEq, Repr

/-- All four locks cleared; the locks written by `DelistFixedToken` and by
the buy settlement (`marketplace/src/contract.rs` lines 185-198, 336-348),
and the collection locks at token-module instantiation. -/
def clearLocks : Locks := ⟨false, false, false, false⟩

/-- The locks written by `ListFixedToken`
(`marketplace/src/contract.rs` lines 142-155): burn, transfer and send
true, mint false. -/
def listedLocks : Locks := ⟨false, true, true, true⟩

/-- A native coin attached to a call. -/
structure Coin where
  denom : String
  amount : Nat
  deriving DecidableEq, Repr

/-! ## Marketplace module

`src/contracts/marketplace/src/contract.rs`, together with the parts of
the token module it calls into.  The marketplace queries the token module
synchronously and the lock-update / admin-transfer messages it emits are
executed in the same atomic call tree, so the world state below carries
both the marketplace storage (`FIXED_LISTING`, `CONFIG`) and the
token-module storage the calls touch (per-token locks, collection locks,
token owners).  Collection locks, the fee percentage, the native denom and
royalty shares are not mutated by any marketplace entry point, but they are
part of the state read by them. -/

/-- Source `marketplace::state::FixedListing` (keyed by `(collection_id, token_id)`). -/
structure FixedListing where
  collection_id : Nat
  token_id : Nat
  price : Nat
  owner : String
  deriving DecidableEq, Repr

/-- Source `komple_utils::FundsError` as surfaced by the funds check. -/
inductive FundsError where
  | MissingFunds
  | InvalidDenom
  | InvalidFunds
  deriving DecidableEq, Repr

/-- Source `marketplace::error::ContractError` (the variants the embedded entry
points can produce; `Std` stands for the storage-load errors). -/
inductive MarketError where
  | Std
  | Unauthorized
  | NotListed
  | SelfPurchase
  | TransferLocked
  | SendLocked
  | BurnLocked
  | Overflow
  | Funds (e : FundsError)
  deriving DecidableEq, Repr

/-- Pointwise update of a map modelled as a function into `Option`. -/
def mupd {κ α : Type} [DecidableEq κ] (m : κ → Option α) (k : κ) (v : Option α) :
    κ → Option α :=
  fun j => if j = k then v else m j

/-- Combined marketplace + token state visible to the marketplace entry
points.  Listings are the marketplace's `FIXED_LISTING` map; `tokenLocks`
is the token module's per-asset `TOKEN_LOCKS` map (per collection);
`owners` the cw721 ownership map; `collectionLocks` the per-collection
`LOCKS` item of each collection's token module. -/
structure World where
  fee_percentage : Nat
  native_denom : String
  royalty_share : Nat → Option Nat
  collectionLocks : Nat → Locks
  listings : Nat × Nat → Option FixedListing
  tokenLocks : Nat × Nat → Option Locks
  owners : Nat × Nat → Option String

/-- Source `check_locks` (`marketplace/src/contract.rs` lines 366-377): fails on a
set transfer, send or burn lock, in that order; ignores the mint lock. -/
def check_locks (l : Locks) : Except MarketError Unit :=
  if l.transfer_lock then .error .TransferLocked
  else if l.send_lock then .error .SendLocked
  else if l.burn_lock then .error .BurnLocked
  else .ok ()

/-- Modelled from the spec: `komple_utils::query_token_locks` (the komple
utils package is not under `src/`).  Per §3 of the spec, a per-asset lock
record is optional and "absence means inherit collection-wide only", so the
per-asset query yields the stored record or all-clear. -/
def query_token_locks (w : World) (k : Nat × Nat) : Locks :=
  (w.tokenLocks k).getD clearLocks

/-- Modelled from the spec: `komple_utils::check_funds` (not under `src/`).
Per §4.6 the funds attached "must match the listing price exactly in the
configured denom", surfacing `MissingFunds` when nothing is attached,
`InvalidDenom` on a denom mismatch and `InvalidFunds` on an amount
mismatch (behaviour also pinned by
`marketplace/tests/integration.rs` lines 1449-1494). -/
def check_funds (funds : List Coin) (denom : String) (price : Nat) :
    Except MarketError Unit :=
  match funds with
  | [] => .error (.Funds .MissingFunds)
  | [c] =>
      if c.denom ≠ denom then .error (.Funds .InvalidDenom)
      else if c.amount ≠ price then .error (.Funds .InvalidFunds)
      else .ok ()
  | _ => .error (.Funds .InvalidFunds)

/-- Source `execute_list_fixed_token` (`marketplace/src/contract.rs` lines
109-160): owner-initiated; requires the collection locks and then the
per-token locks to pass `check_locks`; saves the listing and emits the
`UpdateTokenLock` message writing `listedLocks`, executed atomically with
the save. -/
def execute_list_fixed_token (w : World) (sender : String)
    (collection_id token_id : Nat) (price : Nat) :
    Except MarketError World :=
  match w.owners (collection_id, token_id) with
  | none => .error .Std
  | some owner =>
    if owner ≠ sender then .error .Unauthorized
    else
      match check_locks (w.collectionLocks collection_id) with
      | .error e => .error e
      | .ok _ =>
        match check_locks (query_token_locks w (collection_id, token_id)) with
        | .error e => .error e
        | .ok _ =>
          .ok { w with
            listings := mupd w.listings (collection_id, token_id)
              (some ⟨collection_id, token_id, price, owner⟩),
            tokenLocks := mupd w.tokenLocks (collection_id, token_id)
              (some listedLocks) }

/-- Source `execute_delist_fixed_token` (`marketplace/src/contract.rs` lines
162-203): requires the caller to be the token's owner, fails `NotListed`
when no listing exists, removes the listing and emits the `UpdateTokenLock`
message writing all-clear locks. -/
def execute_delist_fixed_token (w : World) (sender : String)
    (collection_id token_id : Nat) : Except MarketError World :=
  match w.owners (collection_id, token_id) with
  | none => .error .Std
  | some owner =>
    if owner ≠ sender then .error .Unauthorized
    else if (w.listings (collection_id, token_id)).isNone then .error .NotListed
    else
      .ok { w with
        listings := mupd w.listings (collection_id, token_id) none,
        tokenLocks := mupd w.tokenLocks (collection_id, token_id)
          (some clearLocks) }

/-- Source `execute_update_price` for fixed listings
(`marketplace/src/contract.rs` lines 205-232): owner check, then the
listing is loaded (a missing listing is a storage-load error) and saved
back with the new price. -/
def execute_update_price (w : World) (sender : String)
    (collection_id token_id : Nat) (price : Nat) :
    Except MarketError World :=
  match w.owners (collection_id, token_id) with
  | none => .error .Std
  | some owner =>
    if owner ≠ sender then .error .Unauthorized
    else
      match w.listings (collection_id, token_id) with
      | none => .error .Std
      | some l =>
        .ok { w with
          listings := mupd w.listings (collection_id, token_id)
            (some { l with price := price }) }

/-- Source `_execute_buy_fixed_listing` (`marketplace/src/contract.rs` lines
248-356): loads the listing, rejects self purchase, checks the attached
funds, computes the marketplace fee and the royalty fee (zero when the
collection has no royalty share), performs the checked subtraction for the
seller payout, and then — atomically with the listing removal — pays the
parties, transfers ownership to the buyer via `AdminTransferNft` and
clears the token locks. -/
def execute_buy_fixed_listing (w : World) (sender : String)
    (funds : List Coin) (collection_id token_id : Nat) :
    Except MarketError World :=
  match w.listings (collection_id, token_id) with
  | none => .error .Std
  | some l =>
    if l.owner = sender then .error .SelfPurchase
    else
      match check_funds funds w.native_denom l.price with
      | .error e => .error e
      | .ok _ =>
        if l.price < decimal_mul w.fee_percentage l.price +
            royalty_fee_of (w.royalty_share collection_id) l.price then
          .error .Overflow
        else
          .ok { w with
            listings := mupd w.listings (collection_id, token_id) none,
            owners := mupd w.owners (collection_id, token_id) (some sender),
            tokenLocks := mupd w.tokenLocks (collection_id, token_id)
              (some clearLocks) }

/-- The marketplace operations of claim C2's sequences. -/
inductive MarketOp where
  | list (sender : String) (collection_id token_id price : Nat)
  | delist (sender : String) (collection_id token_id : Nat)
  | updatePrice (sender : String) (collection_id token_id price : Nat)
  | buy (sender : String) (funds : List Coin) (collection_id token_id : Nat)

/-- One top-level marketplace invocation: an error aborts the transaction,
leaving the state unchanged. -/
def applyMarketOp (w : World) (op : MarketOp) : World :=
  match op with
  | .list s c t p =>
      match execute_list_fixed_token w s c t p with
      | .ok w2 => w2
      | .error _ => w
  | .delist s c t =>
      match execute_delist_fixed_token w s c t with
      | .ok w2 => w2
      | .error _ => w
  | .updatePrice s c t p =>
      match execute_update_price w s c t p with
      | .ok w2 => w2
      | .error _ => w
  | .buy s f c t =>
      match execute_buy_fixed_listing w s f c t with
      | .ok w2 => w2
      | .error _ => w

/-- A sequence of top-level marketplace invocations. -/
def applyMarketOps (ops : List MarketOp) (w : World) : World :=
  ops.foldl applyMarketOp w

/-! ## The listing / lock co-implication (C2) -/

/-- Pointwise disjunction of two lock sets: the effective lock for an
action is the collection-wide flag OR the per-asset flag. -/
def lockOr (a b : Locks) : Locks :=
  ⟨a.mint_lock || b.mint_lock, a.burn_lock || b.burn_lock,
   a.transfer_lock || b.transfer_lock, a.send_lock || b.send_lock⟩

/-- Effective locks of an asset: the collection-wide locks, OR-combined
with the per-asset record when one exists (spec §3: "Effective lock for an
action = collection-wide flag OR (per-asset flag if a per-asset record
exists)"). -/
def effLocks (w : World) (k : Nat × Nat) : Locks :=
  match w.tokenLocks k with
  | none => w.collectionLocks k.1
  | some tl => lockOr (w.collectionLocks k.1) tl

/-- Transfer, send and burn flags all set. -/
def tsbAll (l : Locks) : Bool :=
  l.transfer_lock && l.send_lock && l.burn_lock

/-- Transfer, send and burn flags all clear: exactly the condition under
which `check_locks` succeeds. -/
def tsbClear (l : Locks) : Prop :=
  l.transfer_lock = false ∧ l.send_lock = false ∧ l.burn_lock = false

lemma check_locks_ok_iff (l : Locks) : check_locks l = .ok () ↔ tsbClear l := by
  obtain ⟨m, b, t, s⟩ := l
  cases t <;> cases s <;> cases b <;> simp [check_locks, tsbClear]

lemma mupd_same {κ α : Type} [DecidableEq κ] (m : κ → Option α) (k : κ)
    (v : Option α) : mupd m k v k = v := by
  simp [mupd]

lemma mupd_other {κ α : Type} [DecidableEq κ] (m : κ → Option α) (k j : κ)
    (v : Option α) (h : j ≠ k) : mupd m k v j = m j := by
  simp [mupd, h]

/-- Inverting a successful `ListFixedToken`. -/
lemma list_ok_elim {w : World} {s : String} {c t p : Nat} {w2 : World}
    (h : execute_list_fixed_token w s c t p = .ok w2) :
    w.owners (c, t) = some s ∧
    tsbClear (w.collectionLocks c) ∧
    tsbClear (query_token_locks w (c, t)) ∧
    w2 = { w with
      listings := mupd w.listings (c, t) (some ⟨c, t, p, s⟩),
      tokenLocks := mupd w.tokenLocks (c, t) (some listedLocks) } := by
  unfold execute_list_fixed_token at h
  split at h
  · exact absurd h (by simp)
  case _ owner ho =>
    split at h
    · exact absurd h (by simp)
    case _ hns =>
      have hos : owner = s := not_ne_iff.mp hns
      subst hos
      split at h
      · exact absurd h (by simp)
      case _ u hcoll =>
        split at h
        · exact absurd h (by simp)
        case _ u2 htok =>
          injection h with h2
          subst h2
          refine ⟨ho, ?_, ?_, rfl⟩
          · exact (check_locks_ok_iff _).mp (by cases u; exact hcoll)
          · exact (check_locks_ok_iff _).mp (by cases u2; exact htok)

/-- Inverting a successful `DelistFixedToken`. -/
lemma delist_ok_elim {w : World} {s : String} {c t : Nat} {w2 : World}
    (h : execute_delist_fixed_token w s c t = .ok w2) :
    w.owners (c, t) = some s ∧
    w.listings (c, t) ≠ none ∧
    w2 = { w with
      listings := mupd w.listings (c, t) none,
      tokenLocks := mupd w.tokenLocks (c, t) (some clearLocks) } := by
  unfold execute_delist_fixed_token at h
  split at h
  · exact absurd h (by simp)
  case _ owner ho =>
    split at h
    · exact absurd h (by simp)
    case _ hns =>
      have hos : owner = s := not_ne_iff.mp hns
      subst hos
      split at h
      · exact absurd h (by simp)
      case _ hlst =>
        injection h with h2
        subst h2
        refine ⟨ho, ?_, rfl⟩
        exact fun hnone => hlst (by simp [hnone])

/-- Inverting a successful `UpdatePrice` on a fixed listing. -/
lemma update_price_ok_elim {w : World} {s : String} {c t p : Nat} {w2 : World}
    (h : execute_update_price w s c t p = .ok w2) :
    ∃ l, w.owners (c, t) = some s ∧
      w.listings (c, t) = some l ∧
      w2 = { w with
        listings := mupd w.listings (c, t) (some { l with price := p }) } := by
  unfold execute_update_price at h
  split at h
  · exact absurd h (by simp)
  case _ owner ho =>
    split at h
    · exact absurd h (by simp)
    case _ hns =>
      have hos : owner = s := not_ne_iff.mp hns
      subst hos
      split at h
      · exact absurd h (by simp)
      case _ l hl =>
        injection h with h2
        subst h2
        exact ⟨l, ho, hl, rfl⟩

/-- Inverting a successful `Buy` of a fixed listing. -/
lemma buy_ok_elim {w : World} {s : String} {f : List Coin} {c t : Nat}
    {w2 : World} (h : execute_buy_fixed_listing w s f c t = .ok w2) :
    ∃ l, w.listings (c, t) = some l ∧
      l.owner ≠ s ∧
      check_funds f w.native_denom l.price = .ok () ∧
      w2 = { w with
        listings := mupd w.listings (c, t) none,
        owners := mupd w.owners (c, t) (some s),
        tokenLocks := mupd w.tokenLocks (c, t) (some clearLocks) } := by
  unfold execute_buy_fixed_listing at h
  split at h
  · exact absurd h (by simp)
  case _ l hl =>
    split at h
    · exact absurd h (by simp)
    case _ hown =>
      split at h
      · exact absurd h (by simp)
      case _ u hfunds =>
        split at h
        · exact absurd h (by simp)
        case _ =>
          injection h with h2
          subst h2
          exact ⟨l, hl, hown, by cases u; exact hfunds, rfl⟩

/-- The inductive invariant for C2: wherever a listing exists, the
effective transfer / send / burn locks are all set and the collection-wide
locks are clear for those actions (the per-asset record owns the lock);
wherever no listing exists, the effective locks are not all set. -/
def StrongInv (w : World) : Prop :=
  ∀ k : Nat × Nat,
    (w.listings k ≠ none →
      tsbAll (effLocks w k) = true ∧ tsbClear (w.collectionLocks k.1)) ∧
    (w.listings k = none → tsbAll (effLocks w k) = false)

lemma effLocks_listed (w : World) (k : Nat × Nat)
    (h : w.tokenLocks k = some listedLocks) :
    tsbAll (effLocks w k) = true := by
  simp [effLocks, h, lockOr, tsbAll, listedLocks]

lemma effLocks_cleared (w : World) (k : Nat × Nat)
    (h : w.tokenLocks k = some clearLocks)
    (hc : tsbClear (w.collectionLocks k.1)) :
    tsbAll (effLocks w k) = false := by
  obtain ⟨h1, h2, h3⟩ := hc
  simp [effLocks, h, lockOr, tsbAll, clearLocks, h1, h2, h3]

lemma effLocks_congr (w w2 : World) (k : Nat × Nat)
    (hT : w2.tokenLocks k = w.tokenLocks k)
    (hC : w2.collectionLocks k.1 = w.collectionLocks k.1) :
    effLocks w2 k = effLocks w k := by
  simp [effLocks, hT, hC]

lemma list_preserves_inv {w : World} {s : String} {c t p : Nat} {w2 : World}
    (hInv : StrongInv w) (h : execute_list_fixed_token w s c t p = .ok w2) :
    StrongInv w2 := by
  obtain ⟨-, hcoll, -, hw2⟩ := list_ok_elim h
  subst hw2
  intro j
  by_cases hj : j = (c, t)
  · subst hj
    refine ⟨fun _ => ⟨?_, hcoll⟩, fun hnone => ?_⟩
    · exact effLocks_listed _ _ (by simp [mupd])
    · simp [mupd] at hnone
  · have hE : effLocks { w with
        listings := mupd w.listings (c, t) (some ⟨c, t, p, s⟩),
        tokenLocks := mupd w.tokenLocks (c, t) (some listedLocks) } j
        = effLocks w j :=
      effLocks_congr _ _ _ (mupd_other _ _ _ _ hj) rfl
    refine ⟨fun hsome => ?_, fun hnone => ?_⟩
    · rw [hE]
      exact (hInv j).1 (by simpa [mupd, hj] using hsome)
    · rw [hE]
      exact (hInv j).2 (by simpa [mupd, hj] using hnone)

lemma delist_preserves_inv {w : World} {s : String} {c t : Nat} {w2 : World}
    (hInv : StrongInv w) (h : execute_delist_fixed_token w s c t = .ok w2) :
    StrongInv w2 := by
  obtain ⟨-, hlst, hw2⟩ := delist_ok_elim h
  have hcoll : tsbClear (w.collectionLocks c) := ((hInv (c, t)).1 hlst).2
  subst hw2
  intro j
  by_cases hj : j = (c, t)
  · subst hj
    refine ⟨fun hsome => ?_, fun _ => ?_⟩
    · simp [mupd] at hsome
    · exact effLocks_cleared _ _ (by simp [mupd]) hcoll
  · have hE : effLocks { w with
        listings := mupd w.listings (c, t) none,
        tokenLocks := mupd w.tokenLocks (c, t) (some clearLocks) } j
        = effLocks w j :=
      effLocks_congr _ _ _ (mupd_other _ _ _ _ hj) rfl
    refine ⟨fun hsome => ?_, fun hnone => ?_⟩
    · rw [hE]
      exact (hInv j).1 (by simpa [mupd, hj] using hsome)
    · rw [hE]
      exact (hInv j).2 (by simpa [mupd, hj] using hnone)

lemma update_price_preserves_inv {w : World} {s : String} {c t p : Nat}
    {w2 : World} (hInv : StrongInv w)
    (h : execute_update_price w s c t p = .ok w2) : StrongInv w2 := by
  obtain ⟨l, -, hl, hw2⟩ := update_price_ok_elim h
  subst hw2
  intro j
  have hE : effLocks { w with
      listings := mupd w.listings (c, t) (some { l with price := p }) } j
      = effLocks w j :=
    effLocks_congr _ _ _ rfl rfl
  by_cases hj : j = (c, t)
  · subst hj
    refine ⟨fun _ => ?_, fun hnone => ?_⟩
    · rw [hE]
      exact (hInv (c, t)).1 (by simp [hl])
    · simp [mupd] at hnone
  · refine ⟨fun hsome => ?_, fun hnone => ?_⟩
    · rw [hE]
      exact (hInv j).1 (by simpa [mupd, hj] using hsome)
    · rw [hE]
      exact (hInv j).2 (by simpa [mupd, hj] using hnone)

lemma buy_preserves_inv {w : World} {s : String} {f : List Coin} {c t : Nat}
    {w2 : World} (hInv : StrongInv w)
    (h : execute_buy_fixed_listing w s f c t = .ok w2) : StrongInv w2 := by
  obtain ⟨l, hl, -, -, hw2⟩ := buy_ok_elim h
  have hcoll : tsbClear (w.collectionLocks c) :=
    ((hInv (c, t)).1 (by simp [hl])).2
  subst hw2
  intro j
  by_cases hj : j = (c, t)
  · subst hj
    refine ⟨fun hsome => ?_, fun _ => ?_⟩
    · simp [mupd] at hsome
    · exact effLocks_cleared _ _ (by simp [mupd]) hcoll
  · have hE : effLocks { w with
        listings := mupd w.listings (c, t) none,
        owners := mupd w.owners (c, t) (some s),
        tokenLocks := mupd w.tokenLocks (c, t) (some clearLocks) } j
        = effLocks w j :=
      effLocks_congr _ _ _ (mupd_other _ _ _ _ hj) rfl
    refine ⟨fun hsome => ?_, fun hnone => ?_⟩
    · rw [hE]
      exact (hInv j).1 (by simpa [mupd, hj] using hsome)
    · rw [hE]
      exact (hInv j).2 (by simpa [mupd, hj] using hnone)

lemma applyMarketOp_preserves_inv (w : World) (op : MarketOp)
    (hInv : StrongInv w) : StrongInv (applyMarketOp w op) := by
  cases op with
  | list s c t p =>
      show StrongInv (match execute_list_fixed_token w s c t p with
        | .ok w2 => w2 | .error _ => w)
      cases h : execute_list_fixed_token w s c t p with
      | ok w2 => exact list_preserves_inv hInv h
      | error e => exact hInv
  | delist s c t =>
      show StrongInv (match execute_delist_fixed_token w s c t with
        | .ok w2 => w2 | .error _ => w)
      cases h : execute_delist_fixed_token w s c t with
      | ok w2 => exact delist_preserves_inv hInv h
      | error e => exact hInv
  | updatePrice s c t p =>
      show StrongInv (match execute_update_price w s c t p with
        | .ok w2 => w2 | .error _ => w)
      cases h : execute_update_price w s c t p with
      | ok w2 => exact update_price_preserves_inv hInv h
      | error e => exact hInv
  | buy s f c t =>
      show StrongInv (match execute_buy_fixed_listing w s f c t with
        | .ok w2 => w2 | .error _ => w)
      cases h : execute_buy_fixed_listing w s f c t with
      | ok w2 => exact buy_preserves_inv hInv h
      | error e => exact hInv

lemma applyMarketOps_preserves_inv (ops : List MarketOp) (w : World)
    (hInv : StrongInv w) : StrongInv (applyMarketOps ops w) := by
  induction ops generalizing w with
  | nil => exact hInv
  | cons op rest ih =>
      exact ih _ (applyMarketOp_preserves_inv w op hInv)

/-- The world at marketplace deployment: no listings, no per-asset lock
records; collection locks, royalty shares, fee rate and ownership of
already-minted tokens are arbitrary parameters. -/
def initWorld (fee : Nat) (denom : String) (royalty : Nat → Option Nat)
    (collLocks : Nat → Locks) (owners0 : Nat × Nat → Option String) : World :=
  { fee_percentage := fee
    native_denom := denom
    royalty_share := royalty
    collectionLocks := collLocks
    listings := fun _ => none
    tokenLocks := fun _ => none
    owners := owners0 }

lemma initWorld_inv (fee : Nat) (denom : String) (royalty : Nat → Option Nat)
    (collLocks : Nat → Locks) (owners0 : Nat × Nat → Option String)
    (hc : ∀ cid, tsbAll (collLocks cid) = false) :
    StrongInv (initWorld fee denom royalty collLocks owners0) := by
  intro k
  constructor
  · intro hsome
    exact absurd rfl hsome
  · intro _
    simpa [effLocks, initWorld] using hc k.1

/-- C2: Listing / lock co-implication.  Starting from a freshly deployed
marketplace (no listings, no per-asset lock records) over collections whose
collection-wide transfer / send / burn locks are not all set, after any
sequence of `ListFixedToken`, `DelistFixedToken`, `UpdatePrice` and `Buy`
operations, a fixed listing exists for a pair `(collection_id, token_id)`
if and only if that token's effective transfer, send and burn locks are
all true. -/
theorem C2_listing_lock_coimplication (fee : Nat) (denom : String)
    (royalty : Nat → Option Nat) (collLocks : Nat → Locks)
    (owners0 : Nat × Nat → Option String)
    (hc : ∀ cid, tsbAll (collLocks cid) = false)
    (ops : List MarketOp) (k : Nat × Nat) :
    ((applyMarketOps ops (initWorld fee denom royalty collLocks owners0)).listings k).isSome = true ↔
      tsbAll (effLocks (applyMarketOps ops (initWorld fee denom royalty collLocks owners0)) k) = true := by
  have hInv := applyMarketOps_preserves_inv ops _
    (initWorld_inv fee denom royalty collLocks owners0 hc)
  constructor
  · intro hsome
    refine ((hInv k).1 ?_).1
    revert hsome
    cases (applyMarketOps ops (initWorld fee denom royalty collLocks owners0)).listings k <;> simp
  · intro heff
    by_contra hnone
    have hn : (applyMarketOps ops (initWorld fee denom royalty collLocks owners0)).listings k = none := by
      revert hnone
      cases (applyMarketOps ops (initWorld fee denom royalty collLocks owners0)).listings k <;> simp
    have hfalse := (hInv k).2 hn
    rw [heff] at hfalse
    exact absurd hfalse (by simp)

/-- Witness for C2: one seller lists token (1,1) at price 1000 and a buyer
buys it; afterwards the co-implication holds at (1,1). -/
theorem C2_listing_lock_coimplication_witness :
    (∀ cid, tsbAll ((fun _ : Nat => clearLocks) cid) = false) ∧
    (((applyMarketOps
        [.list "seller" 1 1 1000, .buy "buyer" [⟨"ujuno", 1000⟩] 1 1]
        (initWorld 40000000000000000 "ujuno" (fun _ => none)
          (fun _ => clearLocks)
          (fun k => if k = (1, 1) then some "seller" else none))).listings (1, 1)).isSome = true ↔
      tsbAll (effLocks (applyMarketOps
        [.list "seller" 1 1 1000, .buy "buyer" [⟨"ujuno", 1000⟩] 1 1]
        (initWorld 40000000000000000 "ujuno" (fun _ => none)
          (fun _ => clearLocks)
          (fun k => if k = (1, 1) then some "seller" else none))) (1, 1)) = true) :=
  ⟨fun _ => rfl,
   C2_listing_lock_coimplication 40000000000000000 "ujuno" (fun _ => none)
     (fun _ => clearLocks)
     (fun k => if k = (1, 1) then some "seller" else none)
     (fun _ => rfl)
     [.list "seller" 1 1 1000, .buy "buyer" [⟨"ujuno", 1000⟩] 1 1]
     (1, 1)⟩

/-! ## Buy and delist preconditions (C7, C8) -/

lemma check_funds_ok_iff (f : List Coin) (d : String) (p : Nat) :
    check_funds f d p = .ok () ↔ f = [⟨d, p⟩] := by
  match f with
  | [] => simp [check_funds]
  | [c] =>
      obtain ⟨cd, ca⟩ := c
      by_cases hd : cd = d
      · by_cases ha : ca = p
        · subst hd; subst ha; simp [check_funds]
        · simp [check_funds, hd, ha]
      · simp [check_funds, hd]
  | c1 :: c2 :: rest => simp [check_funds]

lemma check_funds_error_funds (f : List Coin) (d : String) (p : Nat)
    (e : MarketError) (h : check_funds f d p = .error e) :
    ∃ fe : FundsError, e = .Funds fe := by
  match f with
  | [] =>
      simp [check_funds] at h
      exact ⟨.MissingFunds, h.symm⟩
  | [c] =>
      by_cases hd : c.denom = d
      · by_cases ha : c.amount = p
        · simp [check_funds, hd, ha] at h
        · simp [check_funds, hd, ha] at h
          exact ⟨.InvalidFunds, h.symm⟩
      · simp [check_funds, hd] at h
        exact ⟨.InvalidDenom, h.symm⟩
  | c1 :: c2 :: rest =>
      simp [check_funds] at h
      exact ⟨.InvalidFunds, h.symm⟩

/-- C7: Buy preconditions.  For a fixed listing at `(collection_id,
token_id)`: when the caller equals the listing's recorded owner the buy
fails with `SelfPurchase`; when the caller differs but the attached funds
are not exactly one coin of the configured native denom carrying exactly
the listing price, the buy fails with a funds error
(`MissingFunds` / `InvalidDenom` / `InvalidFunds`); in both cases the
transaction leaves the state unchanged and the listing remains present. -/
theorem C7_buy_preconditions (w : World) (sender : String) (funds : List Coin)
    (c t : Nat) (l : FixedListing) (hl : w.listings (c, t) = some l) :
    (sender = l.owner →
      execute_buy_fixed_listing w sender funds c t = .error .SelfPurchase ∧
      applyMarketOp w (.buy sender funds c t) = w ∧
      (applyMarketOp w (.buy sender funds c t)).listings (c, t) = some l) ∧
    (sender ≠ l.owner → funds ≠ [⟨w.native_denom, l.price⟩] →
      ∃ fe : FundsError,
        execute_buy_fixed_listing w sender funds c t = .error (.Funds fe) ∧
        applyMarketOp w (.buy sender funds c t) = w ∧
        (applyMarketOp w (.buy sender funds c t)).listings (c, t) = some l) := by
  constructor
  · intro hsender
    have hres : execute_buy_fixed_listing w sender funds c t
        = .error .SelfPurchase := by
      unfold execute_buy_fixed_listing
      rw [hl]
      simp [hsender]
    have happ : applyMarketOp w (.buy sender funds c t) = w := by
      show (match execute_buy_fixed_listing w sender funds c t with
        | .ok w2 => w2 | .error _ => w) = w
      rw [hres]
    exact ⟨hres, happ, by rw [happ]; exact hl⟩
  · intro hsender hfunds
    have hcf : ∃ e, check_funds funds w.native_denom l.price = .error e := by
      cases hc : check_funds funds w.native_denom l.price with
      | ok u =>
          cases u
          exact absurd ((check_funds_ok_iff _ _ _).mp hc) hfunds
      | error e => exact ⟨e, rfl⟩
    obtain ⟨e, he⟩ := hcf
    obtain ⟨fe, hfe⟩ := check_funds_error_funds _ _ _ _ he
    subst hfe
    have hres : execute_buy_fixed_listing w sender funds c t
        = .error (.Funds fe) := by
      unfold execute_buy_fixed_listing
      rw [hl]
      have : ¬ l.owner = sender := fun hx => hsender hx.symm
      simp [this, he]
    have happ : applyMarketOp w (.buy sender funds c t) = w := by
      show (match execute_buy_fixed_listing w sender funds c t with
        | .ok w2 => w2 | .error _ => w) = w
      rw [hres]
    exact ⟨fe, hres, happ, by rw [happ]; exact hl⟩

/-- A concrete listed world used by the buy / delist witnesses: token
(1,1) owned by "seller" is listed at price 1000. -/
def W7 : World :=
  { fee_percentage := 40000000000000000
    native_denom := "ujuno"
    royalty_share := fun _ => none
    collectionLocks := fun _ => clearLocks
    listings := fun k => if k = (1, 1) then some ⟨1, 1, 1000, "seller"⟩ else none
    tokenLocks := fun k => if k = (1, 1) then some listedLocks else none
    owners := fun k => if k = (1, 1) then some "seller" else none }

/-- Witness for C7: the listed owner attempting to buy its own listing
fails with `SelfPurchase` and the listing stays. -/
theorem C7_buy_preconditions_witness :
    W7.listings (1, 1) = some ⟨1, 1, 1000, "seller"⟩ ∧
    ("seller" : String) = (FixedListing.mk 1 1 1000 "seller").owner ∧
    (execute_buy_fixed_listing W7 "seller" [] 1 1 = .error .SelfPurchase ∧
     applyMarketOp W7 (.buy "seller" [] 1 1) = W7 ∧
     (applyMarketOp W7 (.buy "seller" [] 1 1)).listings (1, 1) =
       some ⟨1, 1, 1000, "seller"⟩) :=
  ⟨rfl, rfl,
   (C7_buy_preconditions W7 "seller" [] 1 1 ⟨1, 1, 1000, "seller"⟩ rfl).1 rfl⟩

/-- C8: DelistFixedToken behaviour.  In any state where a listing at the
key records the same owner the token module records (true in every
reachable state): a successful delist implies the caller was the
listing's recorded owner; when the caller owns the token but no listing
exists the call fails `NotListed`; and a successful delist removes the
listing and writes the all-clear lock set (burn, mint, transfer, send
all false) for the asset. -/
theorem C8_delist_behaviour (w : World) (sender : String) (c t : Nat)
    (hagree : ∀ l, w.listings (c, t) = some l → w.owners (c, t) = some l.owner) :
    (∀ w2, execute_delist_fixed_token w sender c t = .ok w2 →
      (∀ l, w.listings (c, t) = some l → l.owner = sender) ∧
      w2.listings (c, t) = none ∧
      w2.tokenLocks (c, t) = some clearLocks) ∧
    (w.owners (c, t) = some sender → w.listings (c, t) = none →
      execute_delist_fixed_token w sender c t = .error .NotListed) := by
  constructor
  · intro w2 h
    obtain ⟨howner, hlst, hw2⟩ := delist_ok_elim h
    refine ⟨?_, ?_, ?_⟩
    · intro l hl
      have := hagree l hl
      rw [howner] at this
      exact (Option.some.injEq _ _).mp this.symm
    · rw [hw2]
      exact mupd_same _ _ _
    · rw [hw2]
      exact mupd_same _ _ _
  · intro howner hnone
    unfold execute_delist_fixed_token
    rw [howner]
    simp [hnone]

/-- A world with an owned but unlisted token (1,1), for the C8 witness. -/
def W8 : World :=
  { fee_percentage := 40000000000000000
    native_denom := "ujuno"
    royalty_share := fun _ => none
    collectionLocks := fun _ => clearLocks
    listings := fun _ => none
    tokenLocks := fun _ => none
    owners := fun k => if k = (1, 1) then some "seller" else none }

/-- Witness for C8: the owner delisting an unlisted token gets
`NotListed`. -/
theorem C8_delist_behaviour_witness :
    W8.owners (1, 1) = some "seller" ∧
    W8.listings (1, 1) = none ∧
    execute_delist_fixed_token W8 "seller" 1 1 = .error .NotListed :=
  ⟨rfl, rfl,
   (C8_delist_behaviour W8 "seller" 1 1
     (fun l hl => absurd hl (by simp [W8]))).2 rfl rfl⟩

/-! ## Token module

`src/contracts/token/src/contract.rs`.  Token ids are `u32` counters used
as string keys for `TOKEN_LOCKS` and the cw721 token map; since
`Nat.toString` is injective the maps are modelled directly over `Nat`
keys. -/

/-- Source `token::state::CollectionConfig` (the fields the embedded operations
read; `start_time` is never checked by `execute_mint` — the source carries
a TODO there). -/
structure CollectionConfig where
  per_address_limit : Option Nat
  max_token_limit : Option Nat
  deriving DecidableEq, Repr

/-- Source `token::error::ContractError` (the variants reachable from the
embedded entry points; `Std` stands for storage/cw721 load errors). -/
inductive TokenError where
  | Std
  | Unauthorized
  | MintLocked
  | BurnLocked
  | TransferLocked
  | SendLocked
  | TokenLimitReached
  deriving DecidableEq, Repr

/-- Pointwise update of a total map. -/
def tupd {κ α : Type} [DecidableEq κ] (m : κ → α) (k : κ) (v : α) : κ → α :=
  fun j => if j = k then v else m j

/-- The token module's storage: `OPERATION_LOCK`, `LOCKS`, `TOKEN_LOCKS`,
`TOKEN_IDS`, `MINTED_TOKENS_PER_ADDR` (absent keys read as 0),
`COLLECTION_CONFIG`, `CONFIG.admin`, `MINT_MODULE_ADDR`, `OPERATORS`, the
cw721 minter, and the cw721 ownership map. -/
structure TokenState where
  admin : String
  minter : String
  mint_module_addr : String
  operators : Option (List String)
  operation_lock : Bool
  locks : Locks
  token_locks : Nat → Option Locks
  token_ids : Nat
  minted_tokens_per_addr : String → Nat
  owners : Nat → Option String
  collection_config : CollectionConfig

/-- Modelled from the spec: `rift_utils::check_admin_privileges` (the
utils package is not under `src/`).  Per §4.5 and the call sites, the
privileged paths accept the contract admin, the parent (mint module)
address when present, and any member of the operator set. -/
def check_admin_privileges (sender admin : String) (parent : Option String)
    (operators : Option (List String)) : Bool :=
  sender == admin || parent == some sender ||
    (operators.getD []).contains sender

/-- Source `execute_mint` (`token/src/contract.rs` lines 312-370): operation
lock, collection-wide mint lock and a pre-set per-asset mint lock for the
next id each yield `MintLocked`; exceeding `max_token_limit` or
`per_address_limit` yields `TokenLimitReached`; otherwise the counters are
advanced and the cw721 mint primitive creates ownership of the next id.
The cw721 primitive itself (external to this repository) rejects callers
other than the configured minter and refuses an already-claimed id; a
failure there reverts the whole call, so the error paths return the
unchanged state. -/
def token_execute_mint (s : TokenState) (sender owner : String) :
    Except TokenError TokenState :=
  if s.operation_lock then .error .MintLocked
  else if s.locks.mint_lock then .error .MintLocked
  else if ((s.token_locks (s.token_ids + 1)).getD clearLocks).mint_lock then
    .error .MintLocked
  else if (match s.collection_config.max_token_limit with
           | some m => decide (s.token_ids + 1 > m)
           | none => false) then .error .TokenLimitReached
  else if (match s.collection_config.per_address_limit with
           | some l => decide (s.minted_tokens_per_addr owner + 1 > l)
           | none => false) then .error .TokenLimitReached
  else if sender ≠ s.minter then .error .Unauthorized
  else if (s.owners (s.token_ids + 1)).isSome then .error .Std
  else
    .ok { s with
      minted_tokens_per_addr := tupd s.minted_tokens_per_addr owner
        (s.minted_tokens_per_addr owner + 1),
      token_ids := s.token_ids + 1,
      owners := mupd s.owners (s.token_ids + 1) (some owner) }

/-- Source `execute_burn` (`token/src/contract.rs` lines 372-398): operation
lock, collection-wide burn lock and per-asset burn lock each yield
`BurnLocked`; then the cw721 burn primitive (modelled from the spec:
owner-initiated, removes the ownership record) destroys the token.  The
source does not touch `TOKEN_LOCKS` here. -/
def token_execute_burn (s : TokenState) (sender : String) (token_id : Nat) :
    Except TokenError TokenState :=
  if s.operation_lock then .error .BurnLocked
  else if s.locks.burn_lock then .error .BurnLocked
  else if ((s.token_locks token_id).getD clearLocks).burn_lock then
    .error .BurnLocked
  else
    match s.owners token_id with
    | none => .error .Std
    | some o =>
        if o ≠ sender then .error .Unauthorized
        else .ok { s with owners := mupd s.owners token_id none }

/-- Source `execute_transfer` (`token/src/contract.rs` lines 400-427): operation
lock, collection-wide transfer lock and per-asset transfer lock each yield
`TransferLocked`; then the cw721 transfer primitive (modelled from the
spec: owner-initiated) moves ownership to the recipient. -/
def token_execute_transfer (s : TokenState) (sender : String)
    (token_id : Nat) (recipient : String) : Except TokenError TokenState :=
  if s.operation_lock then .error .TransferLocked
  else if s.locks.transfer_lock then .error .TransferLocked
  else if ((s.token_locks token_id).getD clearLocks).transfer_lock then
    .error .TransferLocked
  else
    match s.owners token_id with
    | none => .error .Std
    | some o =>
        if o ≠ sender then .error .Unauthorized
        else .ok { s with owners := mupd s.owners token_id (some recipient) }

/-- Source `execute_send` (`token/src/contract.rs` lines 454-482): operation
lock, collection-wide send lock and per-asset send lock each yield
`SendLocked`; then the cw721 send primitive (modelled from the spec:
owner-initiated) moves ownership to the receiving contract. -/
def token_execute_send (s : TokenState) (sender : String) (token_id : Nat)
    (contract : String) : Except TokenError TokenState :=
  if s.operation_lock then .error .SendLocked
  else if s.locks.send_lock then .error .SendLocked
  else if ((s.token_locks token_id).getD clearLocks).send_lock then
    .error .SendLocked
  else
    match s.owners token_id with
    | none => .error .Std
    | some o =>
        if o ≠ sender then .error .Unauthorized
        else .ok { s with owners := mupd s.owners token_id (some contract) }

/-- Source `execute_admin_transfer` (`token/src/contract.rs` lines 429-452): the
caller must pass `check_admin_privileges` (admin, mint module or an
operator), after which ownership is transferred via the force-transfer
primitive (modelled from the spec §2/§4.5).  The source performs no
operation-lock check and no semantic-lock check on this path. -/
def token_execute_admin_transfer (s : TokenState) (sender : String)
    (token_id : Nat) (recipient : String) : Except TokenError TokenState :=
  if !(check_admin_privileges sender s.admin (some s.mint_module_addr)
      s.operators) then .error .Unauthorized
  else
    match s.owners token_id with
    | none => .error .Std
    | some _ =>
        .ok { s with owners := mupd s.owners token_id (some recipient) }

/-! ## Admin transfer, operation lock and burn (C3, C9, C10) -/

/-- C3 (amended): `AdminTransferNft` requires the caller to be the admin,
the mint module or an operator (otherwise `Unauthorized`), but it does
NOT honor the locks: once authorized, ownership is transferred to the
recipient regardless of the operation lock, the collection-wide locks and
any per-asset lock record (`execute_admin_transfer`, `token/src/contract.rs`
lines 429-452, performs no lock check). -/
theorem C3_admin_transfer_auth_no_lock_check (s : TokenState)
    (sender : String) (token_id : Nat) (recipient : String) :
    (check_admin_privileges sender s.admin (some s.mint_module_addr)
        s.operators = false →
      token_execute_admin_transfer s sender token_id recipient =
        .error .Unauthorized) ∧
    (check_admin_privileges sender s.admin (some s.mint_module_addr)
        s.operators = true →
      ∀ o, s.owners token_id = some o →
        token_execute_admin_transfer s sender token_id recipient =
          .ok { s with owners := mupd s.owners token_id (some recipient) }) := by
  constructor
  · intro hauth
    unfold token_execute_admin_transfer
    simp [hauth]
  · intro hauth o ho
    unfold token_execute_admin_transfer
    simp [hauth, ho]

/-- A token state whose collection-wide transfer lock and per-asset
transfer lock for token 1 are both set, with token 1 owned by "user". -/
def S3 : TokenState :=
  { admin := "admin"
    minter := "mint_module"
    mint_module_addr := "mint_module"
    operators := none
    operation_lock := false
    locks := ⟨false, false, true, false⟩
    token_locks := fun j => if j = 1 then some ⟨false, false, true, false⟩ else none
    token_ids := 1
    minted_tokens_per_addr := fun _ => 0
    owners := fun j => if j = 1 then some "user" else none
    collection_config := ⟨none, none⟩ }

/-- Counterexample to C3 as stated: with the effective transfer lock set
(both collection-wide and per-asset), an authorized `AdminTransferNft`
succeeds and transfers ownership instead of failing with the matching
locked error. -/
theorem C3_admin_transfer_auth_no_lock_check_counterexample :
    S3.locks.transfer_lock = true ∧
    ((S3.token_locks 1).getD clearLocks).transfer_lock = true ∧
    Except.map (fun s2 => s2.owners 1)
      (token_execute_admin_transfer S3 "admin" 1 "buyer") = .ok (some "buyer") :=
  ⟨rfl, rfl, rfl⟩

/-- Witness for C3 (amended): an unauthorized caller is rejected with
`Unauthorized`. -/
theorem C3_admin_transfer_auth_no_lock_check_witness :
    check_admin_privileges "rando" S3.admin (some S3.mint_module_addr)
      S3.operators = false ∧
    token_execute_admin_transfer S3 "rando" 1 "buyer" = .error .Unauthorized :=
  ⟨rfl, (C3_admin_transfer_auth_no_lock_check S3 "rando" 1 "buyer").1 rfl⟩

/-- C9 (amended): whenever the token module's global `OPERATION_LOCK` is
set, the four owner-initiated mutating operations Mint, Burn, TransferNft
and SendNft fail with the corresponding locked error; the flag is read
first, so this holds for every state, in particular when all semantic
locks are clear.  (`AdminTransferNft` and the configuration entry points
are NOT gated by the operation lock — see the counterexample.) -/
theorem C9_operation_lock_gates_core_ops (s : TokenState)
    (sender owner : String) (token_id : Nat) (recipient contract : String)
    (h : s.operation_lock = true) :
    token_execute_mint s sender owner = .error .MintLocked ∧
    token_execute_burn s sender token_id = .error .BurnLocked ∧
    token_execute_transfer s sender token_id recipient =
      .error .TransferLocked ∧
    token_execute_send s sender token_id contract = .error .SendLocked := by
  refine ⟨?_, ?_, ?_, ?_⟩
  · unfold token_execute_mint
    simp [h]
  · unfold token_execute_burn
    simp [h]
  · unfold token_execute_transfer
    simp [h]
  · unfold token_execute_send
    simp [h]

/-- A token state under emergency pause (`OPERATION_LOCK = true`) with all
semantic locks clear and token 1 owned by "user". -/
def S9 : TokenState :=
  { admin := "admin"
    minter := "mint_module"
    mint_module_addr := "mint_module"
    operators := none
    operation_lock := true
    locks := clearLocks
    token_locks := fun _ => none
    token_ids := 1
    minted_tokens_per_addr := fun _ => 0
    owners := fun j => if j = 1 then some "user" else none
    collection_config := ⟨none, none⟩ }

/-- Counterexample to C9 as stated: with the operation lock set,
`AdminTransferNft` — a mutating token operation — still succeeds and
moves ownership, so not every mutating path is suspended. -/
theorem C9_operation_lock_gates_core_ops_counterexample :
    S9.operation_lock = true ∧
    S9.locks = clearLocks ∧
    S9.token_locks 1 = none ∧
    Except.map (fun s2 => s2.owners 1)
      (token_execute_admin_transfer S9 "admin" 1 "rcpt") = .ok (some "rcpt") :=
  ⟨rfl, rfl, rfl, rfl⟩

/-- Witness for C9 (amended), at the paused state `S9`. -/
theorem C9_operation_lock_gates_core_ops_witness :
    S9.operation_lock = true ∧
    (token_execute_mint S9 "mint_module" "user" = .error .MintLocked ∧
     token_execute_burn S9 "user" 1 = .error .BurnLocked ∧
     token_execute_transfer S9 "user" 1 "rcpt" = .error .TransferLocked ∧
     token_execute_send S9 "user" 1 "contract" = .error .SendLocked) :=
  ⟨rfl, C9_operation_lock_gates_core_ops S9 "mint_module" "user" 1 "rcpt"
    "contract" rfl⟩

/-- Inverting a successful burn. -/
lemma token_burn_ok_elim {s : TokenState} {sender : String} {token_id : Nat}
    {s2 : TokenState} (h : token_execute_burn s sender token_id = .ok s2) :
    s.owners token_id = some sender ∧
    s2 = { s with owners := mupd s.owners token_id none } := by
  unfold token_execute_burn at h
  split at h
  · exact absurd h (by simp)
  split at h
  · exact absurd h (by simp)
  split at h
  · exact absurd h (by simp)
  split at h
  · exact absurd h (by simp)
  case _ o ho =>
    split at h
    · exact absurd h (by simp)
    case _ hos =>
      have : o = sender := not_ne_iff.mp hos
      subst this
      injection h with h2
      subst h2
      exact ⟨ho, rfl⟩

/-- C10 (amended): a successful Burn removes the token's ownership
record, but it does NOT remove the per-asset lock record: `execute_burn`
(`token/src/contract.rs` lines 372-398) never touches `TOKEN_LOCKS`, so
the whole per-asset lock map — in particular any record for the burned
id — is unchanged. -/
theorem C10_burn_removes_owner_keeps_lock_record (s : TokenState)
    (sender : String) (token_id : Nat) (s2 : TokenState)
    (h : token_execute_burn s sender token_id = .ok s2) :
    s2.owners token_id = none ∧ s2.token_locks = s.token_locks := by
  obtain ⟨-, hs2⟩ := token_burn_ok_elim h
  subst hs2
  exact ⟨mupd_same _ _ _, rfl⟩

/-- A token state with an existing (all-clear) per-asset lock record for
token 1, owned by "user". -/
def S10 : TokenState :=
  { admin := "admin"
    minter := "mint_module"
    mint_module_addr := "mint_module"
    operators := none
    operation_lock := false
    locks := clearLocks
    token_locks := fun j => if j = 1 then some clearLocks else none
    token_ids := 1
    minted_tokens_per_addr := fun _ => 0
    owners := fun j => if j = 1 then some "user" else none
    collection_config := ⟨none, none⟩ }

/-- Counterexample to C10 as stated: after a successful burn of token 1,
its per-asset lock record is still present (`some clearLocks`, not
removed). -/
theorem C10_burn_removes_owner_keeps_lock_record_counterexample :
    S10.token_locks 1 = some clearLocks ∧
    Except.map (fun s2 => (s2.owners 1, s2.token_locks 1))
      (token_execute_burn S10 "user" 1) = .ok (none, some clearLocks) :=
  ⟨rfl, rfl⟩

/-- The state after burning token 1 of `S10`. -/
def S10burned : TokenState := { S10 with owners := mupd S10.owners 1 none }

/-- Witness for C10 (amended). -/
theorem C10_burn_removes_owner_keeps_lock_record_witness :
    token_execute_burn S10 "user" 1 = .ok S10burned ∧
    (S10burned.owners 1 = none ∧ S10burned.token_locks = S10.token_locks) :=
  ⟨rfl, C10_burn_removes_owner_keeps_lock_record S10 "user" 1 S10burned rfl⟩

/-! ## Token-module mint gating and quotas (C6) -/

/-- Inverting a successful token-module mint. -/
lemma token_mint_ok_elim {s : TokenState} {sender owner : String}
    {s2 : TokenState} (h : token_execute_mint s sender owner = .ok s2) :
    (match s.collection_config.max_token_limit with
     | some m => decide (s.token_ids + 1 > m)
     | none => false) = false ∧
    (match s.collection_config.per_address_limit with
     | some l => decide (s.minted_tokens_per_addr owner + 1 > l)
     | none => false) = false ∧
    s2 = { s with
      minted_tokens_per_addr := tupd s.minted_tokens_per_addr owner
        (s.minted_tokens_per_addr owner + 1),
      token_ids := s.token_ids + 1,
      owners := mupd s.owners (s.token_ids + 1) (some owner) } := by
  unfold token_execute_mint at h
  split at h
  · exact absurd h (by simp)
  split at h
  · exact absurd h (by simp)
  split at h
  · exact absurd h (by simp)
  case _ hmax0 =>
  split at h
  · exact absurd h (by simp)
  case _ hmax =>
  split at h
  · exact absurd h (by simp)
  case _ hper =>
  split at h
  · exact absurd h (by simp)
  split at h
  · exact absurd h (by simp)
  injection h with h2
  subst h2
  simp at hmax hper
  exact ⟨hmax, hper, rfl⟩

/-- The mint quota invariant of C6: every per-address counter is within a
configured per-address limit, and the id counter (the number of tokens
minted so far) is within a configured max-token limit. -/
def MintQuotaInv (s : TokenState) : Prop :=
  (∀ a l, s.collection_config.per_address_limit = some l →
    s.minted_tokens_per_addr a ≤ l) ∧
  (∀ m, s.collection_config.max_token_limit = some m → s.token_ids ≤ m)

/-- One top-level token-module `Mint` invocation by `op.1` for owner
`op.2`; an error leaves the state unchanged. -/
def applyTokenMint (s : TokenState) (op : String × String) : TokenState :=
  match token_execute_mint s op.1 op.2 with
  | .ok s2 => s2
  | .error _ => s

/-- A sequence of token-module `Mint` invocations. -/
def applyTokenMints (ops : List (String × String)) (s : TokenState) :
    TokenState :=
  ops.foldl applyTokenMint s

lemma applyTokenMint_quota (s : TokenState) (op : String × String)
    (hInv : MintQuotaInv s) : MintQuotaInv (applyTokenMint s op) := by
  show MintQuotaInv (match token_execute_mint s op.1 op.2 with
    | .ok s2 => s2 | .error _ => s)
  cases h : token_execute_mint s op.1 op.2 with
  | error e => exact hInv
  | ok s2 =>
      obtain ⟨hmax, hper, hs2⟩ := token_mint_ok_elim h
      subst hs2
      constructor
      · intro a l hl
        show tupd s.minted_tokens_per_addr op.2
          (s.minted_tokens_per_addr op.2 + 1) a ≤ l
        rw [hl] at hper
        simp at hper
        by_cases ha : a = op.2
        · subst ha
          simp [tupd]
          omega
        · simp [tupd, ha]
          exact hInv.1 a l hl
      · intro m hm
        show s.token_ids + 1 ≤ m
        rw [hm] at hmax
        simp at hmax
        omega

lemma applyTokenMints_quota (ops : List (String × String)) (s : TokenState)
    (hInv : MintQuotaInv s) : MintQuotaInv (applyTokenMints ops s) := by
  induction ops generalizing s with
  | nil => exact hInv
  | cons op rest ih => exact ih _ (applyTokenMint_quota s op hInv)

/-- C6: Token-module Mint gating and quotas.
(a) `Mint` fails `MintLocked` when the global operation lock, the
collection-wide mint lock, or a pre-set per-asset mint lock for the next
id is set.  (b) With those locks clear, it fails `TokenLimitReached` when
the next id would exceed a configured `max_token_limit` or the owner's
minted count would exceed a configured `per_address_limit`.  (c) Otherwise
(for a well-formed call: the caller is the configured cw721 minter and the
next id is unclaimed) it allocates exactly the next sequential id
(previous counter + 1), increments the owner's per-address counter by one
and creates ownership.  (d) Consequently, over any sequence of mints from
a state within quota, the per-address counters never exceed the
per-address limit and the total minted never exceeds the max supply. -/
theorem C6_token_mint_gating_and_quotas :
    (∀ (s : TokenState) (sender owner : String),
      (s.operation_lock = true ∨ s.locks.mint_lock = true ∨
        ((s.token_locks (s.token_ids + 1)).getD clearLocks).mint_lock = true) →
      token_execute_mint s sender owner = .error .MintLocked) ∧
    (∀ (s : TokenState) (sender owner : String),
      s.operation_lock = false → s.locks.mint_lock = false →
      ((s.token_locks (s.token_ids + 1)).getD clearLocks).mint_lock = false →
      ((∃ m, s.collection_config.max_token_limit = some m ∧
          s.token_ids + 1 > m) ∨
       (∃ l, s.collection_config.per_address_limit = some l ∧
          s.minted_tokens_per_addr owner + 1 > l)) →
      token_execute_mint s sender owner = .error .TokenLimitReached) ∧
    (∀ (s : TokenState) (sender owner : String),
      s.operation_lock = false → s.locks.mint_lock = false →
      ((s.token_locks (s.token_ids + 1)).getD clearLocks).mint_lock = false →
      (∀ m, s.collection_config.max_token_limit = some m →
        s.token_ids + 1 ≤ m) →
      (∀ l, s.collection_config.per_address_limit = some l →
        s.minted_tokens_per_addr owner + 1 ≤ l) →
      sender = s.minter → s.owners (s.token_ids + 1) = none →
      ∃ s2, token_execute_mint s sender owner = .ok s2 ∧
        s2.token_ids = s.token_ids + 1 ∧
        s2.minted_tokens_per_addr owner = s.minted_tokens_per_addr owner + 1 ∧
        s2.owners (s.token_ids + 1) = some owner) ∧
    (∀ (ops : List (String × String)) (s : TokenState),
      MintQuotaInv s → MintQuotaInv (applyTokenMints ops s)) := by
  refine ⟨?_, ?_, ?_, applyTokenMints_quota⟩
  · intro s sender owner h
    unfold token_execute_mint
    rcases h with h | h | h
    · simp [h]
    · cases hop : s.operation_lock <;> simp [hop, h]
    · cases hop : s.operation_lock <;> cases hml : s.locks.mint_lock <;>
        simp [hop, hml, h]
  · intro s sender owner hop hml htl hlim
    unfold token_execute_mint
    rcases hlim with ⟨m, hm, hgt⟩ | ⟨l, hl, hgt⟩
    · simp [hop, hml, htl, hm, hgt]
    · by_cases hfirst : (match s.collection_config.max_token_limit with
        | some m => decide (s.token_ids + 1 > m)
        | none => false) = true
      · simp [hop, hml, htl, hfirst]
      · have hfirst2 : (match s.collection_config.max_token_limit with
          | some m => decide (s.token_ids + 1 > m)
          | none => false) = false := by
          simpa using hfirst
        simp [hop, hml, htl, hfirst2, hl, hgt]
  · intro s sender owner hop hml htl hmax hper hsender hfresh
    have h1 : (match s.collection_config.max_token_limit with
        | some m => decide (s.token_ids + 1 > m)
        | none => false) = false := by
      cases hmt : s.collection_config.max_token_limit with
      | none => rfl
      | some m =>
          have := hmax m hmt
          simp
          omega
    have h2 : (match s.collection_config.per_address_limit with
        | some l => decide (s.minted_tokens_per_addr owner + 1 > l)
        | none => false) = false := by
      cases hpt : s.collection_config.per_address_limit with
      | none => rfl
      | some l =>
          have := hper l hpt
          simp
          omega
    have hok : token_execute_mint s sender owner = .ok { s with
        minted_tokens_per_addr := tupd s.minted_tokens_per_addr owner
          (s.minted_tokens_per_addr owner + 1),
        token_ids := s.token_ids + 1,
        owners := mupd s.owners (s.token_ids + 1) (some owner) } := by
      unfold token_execute_mint
      simp [hop, hml, htl, h1, h2, hsender, hfresh]
    refine ⟨_, hok, rfl, ?_, mupd_same _ _ _⟩
    show tupd s.minted_tokens_per_addr owner
      (s.minted_tokens_per_addr owner + 1) owner
      = s.minted_tokens_per_addr owner + 1
    simp [tupd]

/-- A fresh token state with per-address limit 2 and max supply 5. -/
def S6 : TokenState :=
  { admin := "admin"
    minter := "mint_module"
    mint_module_addr := "mint_module"
    operators := none
    operation_lock := false
    locks := clearLocks
    token_locks := fun _ => none
    token_ids := 0
    minted_tokens_per_addr := fun _ => 0
    owners := fun _ => none
    collection_config := ⟨some 2, some 5⟩ }

/-- Witness for C6: from the fresh state `S6` a mint by the configured
minter succeeds, allocates id 1 and sets alice's counter to 1. -/
theorem C6_token_mint_gating_and_quotas_witness :
    ∃ s2, token_execute_mint S6 "mint_module" "alice" = .ok s2 ∧
      s2.token_ids = S6.token_ids + 1 ∧
      s2.minted_tokens_per_addr "alice" =
        S6.minted_tokens_per_addr "alice" + 1 ∧
      s2.owners (S6.token_ids + 1) = some "alice" :=
  C6_token_mint_gating_and_quotas.2.2.1 S6 "mint_module" "alice" rfl rfl rfl
    (fun m hm => by cases hm; decide)
    (fun l hl => by cases hl; decide)
    rfl rfl

/-! ## Mint module

`src/contracts/modules/mint/src/contract.rs`: collection creation and the
active / blacklist collection registries.  A `CreateCollection` response
carries the child-instantiation request; the reply continuation then binds
the child address under the stored collection id.  The host guarantees the
continuation runs before the enclosing invocation finishes and that any
failure aborts the whole tree, so a top-level create is modelled as the
create step followed by the binding, or no change at all. -/

/-- Source `mint::error::ContractError` (the variants reachable from the
embedded entry points; the source spells the first one
`AlreadyWhitelistlisted`). -/
inductive MintError where
  | Std
  | Unauthorized
  | CollectionIdNotFound
  | AlreadyWhitelistlisted
  | AlreadyBlacklisted
  | SelfLinkedCollection
  | LockedMint
  deriving DecidableEq, Repr

/-- The mint module's storage: `CONFIG`, `COLLECTION_ID`,
`COLLECTION_ADDRS`, `BLACKLIST_COLLECTION_ADDRS`, `LINKED_COLLECTIONS`,
`COLLECTION_INFO` (only presence matters here), `HUB_ADDR`, `OPERATORS`. -/
structure MintState where
  admin : String
  public_collection_creation : Bool
  mint_lock : Bool
  collection_id : Nat
  collection_addrs : Nat → Option String
  blacklist_collection_addrs : Nat → Option String
  linked_collections : Nat → Option (List Nat)
  collection_info : Nat → Option Unit
  hub_addr : String
  operators : Option (List String)

/-- Source `check_collection_ids_exists` (`mint/src/contract.rs` lines 736-746):
every referenced id must be present in the active registry
`COLLECTION_ADDRS`, otherwise `CollectionIdNotFound`. -/
def check_collection_ids_exists (s : MintState) (ids : List Nat) :
    Except MintError Unit :=
  if ids.all (fun i => (s.collection_addrs i).isSome) then .ok ()
  else .error .CollectionIdNotFound

/-- Source `execute_create_collection` (`mint/src/contract.rs` lines 133-253):
unless public collection creation is enabled the caller must pass
`check_admin_privileges`; the next sequential collection id is computed;
a linked-collection list, when given, is validated by
`check_collection_ids_exists` (there is no self-reference check on this
path) and stored; the id counter and the collection info are committed.
The `Ok` response carries the child-instantiation request; on error no
request is issued and nothing is committed. -/
def execute_create_collection (s : MintState) (sender : String)
    (linked_collections : Option (List Nat)) : Except MintError MintState :=
  if !s.public_collection_creation &&
      !(check_admin_privileges sender s.admin (some s.hub_addr) s.operators)
  then .error .Unauthorized
  else
    match linked_collections with
    | some l =>
        if l.all (fun i => (s.collection_addrs i).isSome) then
          .ok { s with
            linked_collections := mupd s.linked_collections
              (s.collection_id + 1) (some l),
            collection_id := s.collection_id + 1,
            collection_info := mupd s.collection_info
              (s.collection_id + 1) (some ()) }
        else .error .CollectionIdNotFound
    | none =>
        .ok { s with
          collection_id := s.collection_id + 1,
          collection_info := mupd s.collection_info
            (s.collection_id + 1) (some ()) }

/-- The reply continuation (`mint/src/contract.rs` lines 842-860): binds
the freshly instantiated child address under the stored collection id. -/
def mint_reply_token_instantiate (s : MintState) (addr : String) : MintState :=
  { s with
    collection_addrs := mupd s.collection_addrs s.collection_id (some addr) }

/-- Source `execute_whitelist_collection` (`mint/src/contract.rs` lines 654-693):
admin-gated; fails `AlreadyWhitelistlisted` when the id is already active,
`CollectionIdNotFound` when it is not blacklisted; otherwise moves the id
from the blacklist registry to the active registry in one transition. -/
def execute_whitelist_collection (s : MintState) (sender : String)
    (collection_id : Nat) : Except MintError MintState :=
  if !(check_admin_privileges sender s.admin (some s.hub_addr) s.operators)
  then .error .Unauthorized
  else if (s.collection_addrs collection_id).isSome then
    .error .AlreadyWhitelistlisted
  else
    match s.blacklist_collection_addrs collection_id with
    | none => .error .CollectionIdNotFound
    | some addr =>
        .ok { s with
          blacklist_collection_addrs :=
            mupd s.blacklist_collection_addrs collection_id none,
          collection_addrs := mupd s.collection_addrs collection_id
            (some addr) }

/-- Source `execute_blacklist_collection` (`mint/src/contract.rs` lines 695-734):
admin-gated; fails `AlreadyBlacklisted` when the id is already
blacklisted, `CollectionIdNotFound` when it is not active; otherwise moves
the id from the active registry to the blacklist registry in one
transition. -/
def execute_blacklist_collection (s : MintState) (sender : String)
    (collection_id : Nat) : Except MintError MintState :=
  if !(check_admin_privileges sender s.admin (some s.hub_addr) s.operators)
  then .error .Unauthorized
  else if (s.blacklist_collection_addrs collection_id).isSome then
    .error .AlreadyBlacklisted
  else
    match s.collection_addrs collection_id with
    | none => .error .CollectionIdNotFound
    | some addr =>
        .ok { s with
          collection_addrs := mupd s.collection_addrs collection_id none,
          blacklist_collection_addrs :=
            mupd s.blacklist_collection_addrs collection_id (some addr) }

/-- Source `execute_update_linked_collections` (`mint/src/contract.rs` lines
618-652): admin-gated; this path DOES reject self-reference with
`SelfLinkedCollection`, then requires the collection itself and every
linked id to exist. -/
def execute_update_linked_collections (s : MintState) (sender : String)
    (collection_id : Nat) (linked_collections : List Nat) :
    Except MintError MintState :=
  if !(check_admin_privileges sender s.admin (some s.hub_addr) s.operators)
  then .error .Unauthorized
  else if linked_collections.contains collection_id then
    .error .SelfLinkedCollection
  else if (collection_id :: linked_collections).all
      (fun i => (s.collection_addrs i).isSome) then
    .ok { s with
      linked_collections := mupd s.linked_collections collection_id
        (some linked_collections) }
  else .error .CollectionIdNotFound

/-- Source `execute_update_mint_lock` (`mint/src/contract.rs` lines 290-321). -/
def execute_update_mint_lock (s : MintState) (sender : String) (lock : Bool) :
    Except MintError MintState :=
  if !(check_admin_privileges sender s.admin (some s.hub_addr) s.operators)
  then .error .Unauthorized
  else .ok { s with mint_lock := lock }

/-- Source `execute_update_public_collection_creation`
(`mint/src/contract.rs` lines 255-288). -/
def execute_update_public_collection_creation (s : MintState)
    (sender : String) (b : Bool) : Except MintError MintState :=
  if !(check_admin_privileges sender s.admin (some s.hub_addr) s.operators)
  then .error .Unauthorized
  else .ok { s with public_collection_creation := b }

/-- Source `execute_update_operators` (`mint/src/contract.rs` lines 570-616);
sorting / deduplication does not matter for the registries. -/
def mint_execute_update_operators (s : MintState) (sender : String)
    (addrs : List String) : Except MintError MintState :=
  if !(check_admin_privileges sender s.admin (some s.hub_addr) s.operators)
  then .error .Unauthorized
  else .ok { s with operators := some addrs }

/-- The state-mutating operations of the mint module.  `Mint`, `AdminMint`
and `PermissionMint` write nothing to the mint module's own storage (they
only emit messages), so they do not appear.  A `create` carries the child
address delivered by the reply continuation. -/
inductive MintOp where
  | create (sender : String) (linked : Option (List Nat)) (addr : String)
  | whitelist (sender : String) (collection_id : Nat)
  | blacklist (sender : String) (collection_id : Nat)
  | updateLinked (sender : String) (collection_id : Nat) (linked : List Nat)
  | updateMintLock (sender : String) (lock : Bool)
  | updatePublicCreation (sender : String) (b : Bool)
  | updateOperators (sender : String) (addrs : List String)

/-- One top-level mint-module invocation; an error anywhere in the call
tree (including the reply continuation) rolls the whole invocation back. -/
def applyMintOp (s : MintState) (op : MintOp) : MintState :=
  match op with
  | .create sender linked addr =>
      match execute_create_collection s sender linked with
      | .ok s2 => mint_reply_token_instantiate s2 addr
      | .error _ => s
  | .whitelist sender cid =>
      match execute_whitelist_collection s sender cid with
      | .ok s2 => s2
      | .error _ => s
  | .blacklist sender cid =>
      match execute_blacklist_collection s sender cid with
      | .ok s2 => s2
      | .error _ => s
  | .updateLinked sender cid linked =>
      match execute_update_linked_collections s sender cid linked with
      | .ok s2 => s2
      | .error _ => s
  | .updateMintLock sender lock =>
      match execute_update_mint_lock s sender lock with
      | .ok s2 => s2
      | .error _ => s
  | .updatePublicCreation sender b =>
      match execute_update_public_collection_creation s sender b with
      | .ok s2 => s2
      | .error _ => s
  | .updateOperators sender addrs =>
      match mint_execute_update_operators s sender addrs with
      | .ok s2 => s2
      | .error _ => s

/-- A sequence of top-level mint-module invocations. -/
def applyMintOps (ops : List MintOp) (s : MintState) : MintState :=
  ops.foldl applyMintOp s

/-- The mint module's storage right after `instantiate`
(`mint/src/contract.rs` lines 38-74). -/
def initMintState (admin hub : String) : MintState :=
  { admin := admin
    public_collection_creation := false
    mint_lock := false
    collection_id := 0
    collection_addrs := fun _ => none
    blacklist_collection_addrs := fun _ => none
    linked_collections := fun _ => none
    collection_info := fun _ => none
    hub_addr := hub
    operators := none }

/-! ## Self-linked collection creation (C4) -/

/-- C4 (amended): a `CreateCollection` whose linked-collection list
contains the collection's own about-to-be-assigned id (the current counter
plus one — an id that is never yet bound in the active registry) fails
with `CollectionIdNotFound`, not `SelfLinkedCollection`:
`execute_create_collection` has no self-reference check and
`check_collection_ids_exists` cannot find the unbound id.  The failure
happens before any child-instantiation request is issued (the request is
only carried by an `Ok` response) and no collection state is committed. -/
theorem C4_create_collection_self_link (s : MintState) (sender : String)
    (l : List Nat)
    (hauth : s.public_collection_creation = true ∨
      check_admin_privileges sender s.admin (some s.hub_addr) s.operators
        = true)
    (hmem : s.collection_id + 1 ∈ l)
    (hfree : s.collection_addrs (s.collection_id + 1) = none) :
    execute_create_collection s sender (some l) =
      .error .CollectionIdNotFound := by
  unfold execute_create_collection
  have hguard : (!s.public_collection_creation &&
      !(check_admin_privileges sender s.admin (some s.hub_addr) s.operators))
      = false := by
    rcases hauth with h | h <;> simp [h]
  have hall : l.all (fun i => (s.collection_addrs i).isSome) = false := by
    cases hcase : l.all (fun i => (s.collection_addrs i).isSome) with
    | false => rfl
    | true =>
        have := List.all_eq_true.mp hcase _ hmem
        rw [hfree] at this
        exact absurd this (by simp)
  simp [hguard, hall]

/-- Counterexample to C4 as stated: from a fresh mint module, creating a
collection whose linked list holds its own about-to-be-assigned id (1)
fails with `CollectionIdNotFound`, which is a different error than the
claimed `SelfLinkedCollection`. -/
theorem C4_create_collection_self_link_counterexample :
    (initMintState "admin" "hub").collection_id + 1 = 1 ∧
    (1 : Nat) ∈ [1] ∧
    execute_create_collection (initMintState "admin" "hub") "admin"
      (some [1]) = .error .CollectionIdNotFound ∧
    MintError.CollectionIdNotFound ≠ MintError.SelfLinkedCollection :=
  ⟨rfl, by decide, rfl, by decide⟩

/-- Witness for C4 (amended), at a fresh mint module and linked list [1]. -/
theorem C4_create_collection_self_link_witness :
    ((initMintState "admin" "hub").public_collection_creation = true ∨
      check_admin_privileges "admin" (initMintState "admin" "hub").admin
        (some (initMintState "admin" "hub").hub_addr)
        (initMintState "admin" "hub").operators = true) ∧
    ((initMintState "admin" "hub").collection_id + 1 ∈ [1]) ∧
    (initMintState "admin" "hub").collection_addrs
      ((initMintState "admin" "hub").collection_id + 1) = none ∧
    execute_create_collection (initMintState "admin" "hub") "admin"
      (some [1]) = .error .CollectionIdNotFound :=
  ⟨Or.inr rfl, by decide, rfl,
   C4_create_collection_self_link (initMintState "admin" "hub") "admin" [1]
     (Or.inr rfl) (by decide) rfl⟩

/-! ## Collection registry disjointness (C5) -/

/-- The inductive invariant for C5: no id is in both registries, and no id
above the current counter is in either registry. -/
def RegistryInv (s : MintState) : Prop :=
  (∀ cid, ¬((s.collection_addrs cid).isSome = true ∧
    (s.blacklist_collection_addrs cid).isSome = true)) ∧
  (∀ cid, s.collection_id < cid →
    s.collection_addrs cid = none ∧ s.blacklist_collection_addrs cid = none)

lemma create_ok_elim {s : MintState} {sender : String}
    {linked : Option (List Nat)} {s2 : MintState}
    (h : execute_create_collection s sender linked = .ok s2) :
    s2.collection_addrs = s.collection_addrs ∧
    s2.blacklist_collection_addrs = s.blacklist_collection_addrs ∧
    s2.collection_id = s.collection_id + 1 := by
  unfold execute_create_collection at h
  split at h
  · exact absurd h (by simp)
  split at h
  case _ l =>
    split at h
    · injection h with h2
      subst h2
      exact ⟨rfl, rfl, rfl⟩
    · exact absurd h (by simp)
  case _ =>
    injection h with h2
    subst h2
    exact ⟨rfl, rfl, rfl⟩

lemma whitelist_ok_elim {s : MintState} {sender : String} {cid : Nat}
    {s2 : MintState} (h : execute_whitelist_collection s sender cid = .ok s2) :
    ∃ addr, s.collection_addrs cid = none ∧
      s.blacklist_collection_addrs cid = some addr ∧
      s2 = { s with
        blacklist_collection_addrs :=
          mupd s.blacklist_collection_addrs cid none,
        collection_addrs := mupd s.collection_addrs cid (some addr) } := by
  unfold execute_whitelist_collection at h
  split at h
  · exact absurd h (by simp)
  split at h
  · exact absurd h (by simp)
  case _ hsome =>
    split at h
    · exact absurd h (by simp)
    case _ addr haddr =>
      injection h with h2
      subst h2
      refine ⟨addr, ?_, haddr, rfl⟩
      simpa using hsome

lemma blacklist_ok_elim {s : MintState} {sender : String} {cid : Nat}
    {s2 : MintState} (h : execute_blacklist_collection s sender cid = .ok s2) :
    ∃ addr, s.blacklist_collection_addrs cid = none ∧
      s.collection_addrs cid = some addr ∧
      s2 = { s with
        collection_addrs := mupd s.collection_addrs cid none,
        blacklist_collection_addrs :=
          mupd s.blacklist_collection_addrs cid (some addr) } := by
  unfold execute_blacklist_collection at h
  split at h
  · exact absurd h (by simp)
  split at h
  · exact absurd h (by simp)
  case _ hsome =>
    split at h
    · exact absurd h (by simp)
    case _ addr haddr =>
      injection h with h2
      subst h2
      refine ⟨addr, ?_, haddr, rfl⟩
      simpa using hsome

lemma update_linked_ok_elim {s : MintState} {sender : String} {cid : Nat}
    {linked : List Nat} {s2 : MintState}
    (h : execute_update_linked_collections s sender cid linked = .ok s2) :
    s2.collection_addrs = s.collection_addrs ∧
    s2.blacklist_collection_addrs = s.blacklist_collection_addrs ∧
    s2.collection_id = s.collection_id := by
  unfold execute_update_linked_collections at h
  split at h
  · exact absurd h (by simp)
  split at h
  · exact absurd h (by simp)
  split at h
  · injection h with h2
    subst h2
    exact ⟨rfl, rfl, rfl⟩
  · exact absurd h (by simp)

lemma applyMintOp_registry (s : MintState) (op : MintOp)
    (hInv : RegistryInv s) : RegistryInv (applyMintOp s op) := by
  cases op with
  | create sender linked addr =>
      show RegistryInv (match execute_create_collection s sender linked with
        | .ok s2 => mint_reply_token_instantiate s2 addr
        | .error _ => s)
      cases h : execute_create_collection s sender linked with
      | error e => exact hInv
      | ok s2 =>
          obtain ⟨hca, hba, hcid⟩ := create_ok_elim h
          constructor
          · intro cid
            show ¬((mupd s2.collection_addrs s2.collection_id (some addr)
                cid).isSome = true ∧
              (s2.blacklist_collection_addrs cid).isSome = true)
            by_cases hc : cid = s2.collection_id
            · subst hc
              have hb2 : s2.blacklist_collection_addrs s2.collection_id
                  = none := by
                rw [hba, hcid]
                exact (hInv.2 (s.collection_id + 1) (Nat.lt_succ_self _)).2
              rw [hb2]
              rintro ⟨-, hbb⟩
              exact absurd hbb (by simp)
            · rw [mupd_other _ _ _ _ hc, hca, hba]
              exact hInv.1 cid
          · intro cid hgt
            have hgt2 : s.collection_id + 1 < cid := by
              have : s2.collection_id < cid := hgt
              rwa [hcid] at this
            have hne : cid ≠ s2.collection_id := by
              rw [hcid]
              omega
            constructor
            · show mupd s2.collection_addrs s2.collection_id (some addr) cid
                = none
              rw [mupd_other _ _ _ _ hne, hca]
              exact (hInv.2 cid (by omega)).1
            · show s2.blacklist_collection_addrs cid = none
              rw [hba]
              exact (hInv.2 cid (by omega)).2
  | whitelist sender cid0 =>
      show RegistryInv (match execute_whitelist_collection s sender cid0 with
        | .ok s2 => s2 | .error _ => s)
      cases h : execute_whitelist_collection s sender cid0 with
      | error e => exact hInv
      | ok s2 =>
          obtain ⟨addr, hca, hba, hs2⟩ := whitelist_ok_elim h
          subst hs2
          have hle : ¬ s.collection_id < cid0 := by
            intro hgt
            have := (hInv.2 cid0 hgt).2
            rw [hba] at this
            exact absurd this (by simp)
          constructor
          · intro cid
            by_cases hc : cid = cid0
            · subst hc
              show ¬((mupd s.collection_addrs cid (some addr) cid).isSome
                  = true ∧
                (mupd s.blacklist_collection_addrs cid none cid).isSome = true)
              rw [mupd_same, mupd_same]
              rintro ⟨-, hbb⟩
              exact absurd hbb (by simp)
            · show ¬((mupd s.collection_addrs cid0 (some addr) cid).isSome
                  = true ∧
                (mupd s.blacklist_collection_addrs cid0 none cid).isSome
                  = true)
              rw [mupd_other _ _ _ _ hc, mupd_other _ _ _ _ hc]
              exact hInv.1 cid
          · intro cid hgt
            have hne : cid ≠ cid0 := by
              intro hx
              subst hx
              exact hle hgt
            constructor
            · show mupd s.collection_addrs cid0 (some addr) cid = none
              rw [mupd_other _ _ _ _ hne]
              exact (hInv.2 cid hgt).1
            · show mupd s.blacklist_collection_addrs cid0 none cid = none
              rw [mupd_other _ _ _ _ hne]
              exact (hInv.2 cid hgt).2
  | blacklist sender cid0 =>
      show RegistryInv (match execute_blacklist_collection s sender cid0 with
        | .ok s2 => s2 | .error _ => s)
      cases h : execute_blacklist_collection s sender cid0 with
      | error e => exact hInv
      | ok s2 =>
          obtain ⟨addr, hba, hca, hs2⟩ := blacklist_ok_elim h
          subst hs2
          have hle : ¬ s.collection_id < cid0 := by
            intro hgt
            have := (hInv.2 cid0 hgt).1
            rw [hca] at this
            exact absurd this (by simp)
          constructor
          · intro cid
            by_cases hc : cid = cid0
            · subst hc
              show ¬((mupd s.collection_addrs cid none cid).isSome = true ∧
                (mupd s.blacklist_collection_addrs cid (some addr)
                  cid).isSome = true)
              rw [mupd_same]
              rintro ⟨hcc, -⟩
              exact absurd hcc (by simp)
            · show ¬((mupd s.collection_addrs cid0 none cid).isSome = true ∧
                (mupd s.blacklist_collection_addrs cid0 (some addr)
                  cid).isSome = true)
              rw [mupd_other _ _ _ _ hc, mupd_other _ _ _ _ hc]
              exact hInv.1 cid
          · intro cid hgt
            have hne : cid ≠ cid0 := by
              intro hx
              subst hx
              exact hle hgt
            constructor
            · show mupd s.collection_addrs cid0 none cid = none
              rw [mupd_other _ _ _ _ hne]
              exact (hInv.2 cid hgt).1
            · show mupd s.blacklist_collection_addrs cid0 (some addr) cid
                = none
              rw [mupd_other _ _ _ _ hne]
              exact (hInv.2 cid hgt).2
  | updateLinked sender cid0 linked =>
      show RegistryInv
        (match execute_update_linked_collections s sender cid0 linked with
        | .ok s2 => s2 | .error _ => s)
      cases h : execute_update_linked_collections s sender cid0 linked with
      | error e => exact hInv
      | ok s2 =>
          obtain ⟨hca, hba, hcid⟩ := update_linked_ok_elim h
          constructor
          · intro cid
            rw [hca, hba]
            exact hInv.1 cid
          · intro cid hgt
            rw [hca, hba]
            refine (hInv.2 cid ?_)
            rwa [hcid] at hgt
  | updateMintLock sender lock =>
      show RegistryInv (match execute_update_mint_lock s sender lock with
        | .ok s2 => s2 | .error _ => s)
      cases h : execute_update_mint_lock s sender lock with
      | error e => exact hInv
      | ok s2 =>
          have hs2 : s2 = { s with mint_lock := lock } := by
            unfold execute_update_mint_lock at h
            split at h
            · exact absurd h (by simp)
            · injection h with h2
              exact h2.symm
          subst hs2
          exact hInv
  | updatePublicCreation sender b =>
      show RegistryInv
        (match execute_update_public_collection_creation s sender b with
        | .ok s2 => s2 | .error _ => s)
      cases h : execute_update_public_collection_creation s sender b with
      | error e => exact hInv
      | ok s2 =>
          have hs2 : s2 = { s with public_collection_creation := b } := by
            unfold execute_update_public_collection_creation at h
            split at h
            · exact absurd h (by simp)
            · injection h with h2
              exact h2.symm
          subst hs2
          exact hInv
  | updateOperators sender addrs =>
      show RegistryInv (match mint_execute_update_operators s sender addrs with
        | .ok s2 => s2 | .error _ => s)
      cases h : mint_execute_update_operators s sender addrs with
      | error e => exact hInv
      | ok s2 =>
          have hs2 : s2 = { s with operators := some addrs } := by
            unfold mint_execute_update_operators at h
            split at h
            · exact absurd h (by simp)
            · injection h with h2
              exact h2.symm
          subst hs2
          exact hInv

lemma applyMintOps_registry (ops : List MintOp) (s : MintState)
    (hInv : RegistryInv s) : RegistryInv (applyMintOps ops s) := by
  induction ops generalizing s with
  | nil => exact hInv
  | cons op rest ih => exact ih _ (applyMintOp_registry s op hInv)

lemma initMintState_registry (admin hub : String) :
    RegistryInv (initMintState admin hub) := by
  constructor
  · intro cid
    rintro ⟨hc, -⟩
    exact absurd hc (by simp [initMintState])
  · intro cid _
    exact ⟨rfl, rfl⟩

/-- C5: Collection registry disjointness and move semantics.
`WhitelistCollection` fails `AlreadyWhitelistlisted` when the id is
already active, `CollectionIdNotFound` when it is in neither registry, and
otherwise removes the id from the blacklist and inserts it into the active
registry in the same state transition; `BlacklistCollection` behaves
symmetrically.  Consequently, after any sequence of mint-module operations
from a fresh module, no collection id is ever present in both
registries. -/
theorem C5_registry_disjointness :
    (∀ (s : MintState) (sender : String) (cid : Nat),
      check_admin_privileges sender s.admin (some s.hub_addr) s.operators
        = true →
      ((s.collection_addrs cid).isSome = true →
        execute_whitelist_collection s sender cid =
          .error .AlreadyWhitelistlisted) ∧
      (s.collection_addrs cid = none → s.blacklist_collection_addrs cid = none →
        execute_whitelist_collection s sender cid =
          .error .CollectionIdNotFound) ∧
      (∀ addr, s.collection_addrs cid = none →
        s.blacklist_collection_addrs cid = some addr →
        execute_whitelist_collection s sender cid = .ok { s with
          blacklist_collection_addrs :=
            mupd s.blacklist_collection_addrs cid none,
          collection_addrs := mupd s.collection_addrs cid (some addr) })) ∧
    (∀ (s : MintState) (sender : String) (cid : Nat),
      check_admin_privileges sender s.admin (some s.hub_addr) s.operators
        = true →
      ((s.blacklist_collection_addrs cid).isSome = true →
        execute_blacklist_collection s sender cid =
          .error .AlreadyBlacklisted) ∧
      (s.blacklist_collection_addrs cid = none → s.collection_addrs cid = none →
        execute_blacklist_collection s sender cid =
          .error .CollectionIdNotFound) ∧
      (∀ addr, s.blacklist_collection_addrs cid = none →
        s.collection_addrs cid = some addr →
        execute_blacklist_collection s sender cid = .ok { s with
          collection_addrs := mupd s.collection_addrs cid none,
          blacklist_collection_addrs :=
            mupd s.blacklist_collection_addrs cid (some addr) })) ∧
    (∀ (ops : List MintOp) (admin hub : String) (cid : Nat),
      ¬(((applyMintOps ops (initMintState admin hub)).collection_addrs
          cid).isSome = true ∧
        ((applyMintOps ops (initMintState admin hub)).blacklist_collection_addrs
          cid).isSome = true)) := by
  refine ⟨?_, ?_, ?_⟩
  · intro s sender cid hauth
    refine ⟨?_, ?_, ?_⟩
    · intro hsome
      unfold execute_whitelist_collection
      simp [hauth, hsome]
    · intro hca hba
      unfold execute_whitelist_collection
      simp [hauth, hca, hba]
    · intro addr hca hba
      unfold execute_whitelist_collection
      simp [hauth, hca, hba]
  · intro s sender cid hauth
    refine ⟨?_, ?_, ?_⟩
    · intro hsome
      unfold execute_blacklist_collection
      simp [hauth, hsome]
    · intro hba hca
      unfold execute_blacklist_collection
      simp [hauth, hba, hca]
    · intro addr hba hca
      unfold execute_blacklist_collection
      simp [hauth, hba, hca]
  · intro ops admin hub cid
    exact (applyMintOps_registry ops _ (initMintState_registry admin hub)).1 cid

/-- A mint-module state with collection 1 active and collection 2
blacklisted, for the C5 witness. -/
def M5 : MintState :=
  { admin := "admin"
    public_collection_creation := false
    mint_lock := false
    collection_id := 2
    collection_addrs := fun j => if j = 1 then some "contract1" else none
    blacklist_collection_addrs :=
      fun j => if j = 2 then some "contract2" else none
    linked_collections := fun _ => none
    collection_info := fun _ => none
    hub_addr := "hub"
    operators := none }

/-- Witness for C5: whitelisting the blacklisted collection 2 of `M5`
succeeds and moves the id between the registries in one transition. -/
theorem C5_registry_disjointness_witness :
    check_admin_privileges "admin" M5.admin (some M5.hub_addr) M5.operators
      = true ∧
    M5.collection_addrs 2 = none ∧
    M5.blacklist_collection_addrs 2 = some "contract2" ∧
    execute_whitelist_collection M5 "admin" 2 = .ok { M5 with
      blacklist_collection_addrs :=
        mupd M5.blacklist_collection_addrs 2 none,
      collection_addrs := mupd M5.collection_addrs 2 (some "contract2") } :=
  ⟨rfl, rfl, rfl,
   (C5_registry_disjointness.1 M5 "admin" 2 rfl).2.2 "contract2" rfl rfl⟩
